import Mathlib

/-!
Verification development for the enrichment core of the es-enrichment-sg
repository (src/enrichment_method.py).  Pandas data frames are modelled as
lists of association-list rows together with an explicit column list; a
cell value of `none` models a null/NaN entry.  Fallible pandas operations
(column selection, boolean-mask indexing on a named column, merging on a
join key) return `Except String DFrame`, with `Except.error` standing for
the KeyError the library raises when a named column is absent.
-/

set_option autoImplicit false

namespace Enrichment

/-- A cell of a table; `none` models a null/NaN value. -/
abbrev Cell := Option String

/-- A row: an association list from column name to cell value. -/
abbrev Row := List (String × Cell)

/-- Reading a column of a row.  An entry that is absent reads as null;
column presence is tracked separately by the frame. -/
def getCell (r : Row) (c : String) : Cell :=
  match r.lookup c with
  | some v => v
  | none => none

/-- A data frame: a list of column names and a list of rows. -/
structure DFrame where
  cols : List String
  rows : List Row
  deriving DecidableEq

/-- The empty frame, as built by pd.DataFrame(). -/
def DFrame.empty : DFrame := ⟨[], []⟩

/-- Column selection data[cs], as in pandas: fails with a KeyError when a
requested column is absent from the frame. -/
def selectCols (df : DFrame) (cs : List String) : Except String DFrame :=
  if ∀ c ∈ cs, c ∈ df.cols then
    .ok ⟨cs, df.rows.map (fun r => cs.map (fun c => (c, getCell r c)))⟩
  else
    .error "KeyError: column not found in frame"

/-- Overwrite (or append) the entry of one column in a row. -/
def setEntry (r : Row) (c : String) (v : Cell) : Row :=
  (r.filter (fun p => p.1 != c)) ++ [(c, v)]

/-- Column assignment data[c] = v with a constant string value, as in
pandas: overwrites the column when present, appends it otherwise. -/
def setCol (df : DFrame) (c : String) (v : String) : DFrame :=
  ⟨if c ∈ df.cols then df.cols else df.cols ++ [c],
   df.rows.map (fun r => setEntry r c (some v))⟩

/-- Boolean-mask selection data[data[c].isnull()], as in pandas: keeps
the rows whose value at column c is null, failing when c is absent. -/
def filterNull (df : DFrame) (c : String) : Except String DFrame :=
  if c ∈ df.cols then
    .ok ⟨df.cols, df.rows.filter (fun r => (getCell r c).isNone)⟩
  else
    .error "KeyError: column not found in frame"

/-- Boolean-mask selection data[(data[c1] == v1) & (data[c2] == v2)]:
keeps the rows matching both equalities (a null entry never matches),
failing when either named column is absent. -/
def filterEqEq (df : DFrame) (c1 v1 c2 v2 : String) : Except String DFrame :=
  if c1 ∈ df.cols ∧ c2 ∈ df.cols then
    .ok ⟨df.cols,
         df.rows.filter (fun r => getCell r c1 == some v1 && getCell r c2 == some v2)⟩
  else
    .error "KeyError: column not found in frame"

/-- pd.concat([a, b]): stacks the rows; the column list is the union in
order of first appearance, and entries absent from a row read as null. -/
def concatDF (a b : DFrame) : DFrame :=
  ⟨a.cols ++ b.cols.filter (fun c => !(a.cols.contains c)), a.rows ++ b.rows⟩

/-- Embeds marine_mismatch_detector of src/enrichment_method.py: select
the rows with survey_column equal to "076" and check_column equal to "n",
assign the issue text, and project to the five output columns. -/
def marine_mismatch_detector (data : DFrame)
    (survey_column check_column period_column identifier_column : String) :
    Except String DFrame := do
  let bad_data ← filterEqEq data survey_column "076" check_column "n"
  let bad_data := setCol bad_data "issue" "Reference should not produce marine data."
  selectCols bad_data
    [identifier_column, "issue", survey_column, check_column, period_column]

/-- Embeds missing_column_detector of src/enrichment_method.py: for each
column to check, select the rows where it is null, tag them with the issue
text, concatenate onto an initially empty frame, and finally project to
the identifier and issue columns. -/
def missing_column_detector (data : DFrame) (columns_to_check : List String)
    (identifier_column : String) : Except String DFrame := do
  let data_without_columns ← columns_to_check.foldlM
    (fun data_without_columns column_to_check => do
      let data_without_column ← filterNull data column_to_check
      let data_without_column :=
        setCol data_without_column "issue" (column_to_check ++ " missing in lookup.")
      pure (concatDF data_without_columns data_without_column))
    DFrame.empty
  selectCols data_without_columns [identifier_column, "issue"]

/-- Output name of a left-side column after a merge: pandas suffixes a
non-key column that also occurs on the right with _x. -/
def leftColName (rightCols : List String) (j c : String) : String :=
  if c ≠ j ∧ c ∈ rightCols then c ++ "_x" else c

/-- Output name of a right-side column after a merge: pandas suffixes a
non-key column that also occurs on the left with _y. -/
def rightColName (leftCols : List String) (j c : String) : String :=
  if c ≠ j ∧ c ∈ leftCols then c ++ "_y" else c

/-- One output row of a left merge: the left columns followed by the
non-key right columns, read from the matched right row, or null when the
left row had no match. -/
def mkJoinRow (lcols rcols : List String) (j : String) (lr : Row) (rr : Option Row) :
    Row :=
  lcols.map (fun c => (leftColName rcols j c, getCell lr c)) ++
  (rcols.filter (fun c => c != j)).map
    (fun c => (rightColName lcols j c, rr.bind (fun r => getCell r c)))

/-- The rows of the right frame whose join-column value equals that of
the given left row.  pandas merge keys match on equality, nulls included. -/
def matchesOf (right : DFrame) (j : String) (lr : Row) : List Row :=
  right.rows.filter (fun rr => getCell rr j == getCell lr j)

/-- pd.merge(left, right, on = j, how = "left"): every left row is kept;
a row with no match is padded with nulls, a row with several matches fans
out to one output row per match.  Fails when the join column is absent
from either side. -/
def mergeLeft (left right : DFrame) (j : String) : Except String DFrame :=
  if j ∈ left.cols ∧ j ∈ right.cols then
    .ok ⟨left.cols.map (leftColName right.cols j) ++
           (right.cols.filter (fun c => c != j)).map (rightColName left.cols j),
         left.rows.flatMap (fun lr =>
           let ms := matchesOf right j lr
           if ms.isEmpty then [mkJoinRow left.cols right.cols j lr none]
           else ms.map (fun rr => mkJoinRow left.cols right.cols j lr (some rr)))⟩
  else
    .error "KeyError: join column not found"

/-- Embeds do_merge of src/enrichment_method.py.  Retrieval of the lookup
frame from the S3 bucket is modelled by the external fetch collaborator,
keyed by the lookup file name. -/
def do_merge (input_data : DFrame) (join_data : String)
    (columns_to_keep : List String) (join_column : String)
    (fetch : String → Except String DFrame) : Except String DFrame := do
  let join_dataframe ← fetch join_data
  let restricted ← selectCols join_dataframe columns_to_keep
  mergeLeft input_data restricted join_column

/-- One entry of the lookups configuration mapping of data_enrichment,
in the iteration order of that mapping. -/
structure LookupSpec where
  required : List String
  file_name : String
  columns_to_keep : List String
  join_column : String
  deriving DecidableEq

/-- First loop of data_enrichment: fold the lookups with do_merge over
the running frame, collecting the required column lists in order. -/
def joinLookups (data_df : DFrame) (lookups : List LookupSpec)
    (fetch : String → Except String DFrame) :
    Except String (List (List String) × DFrame) :=
  lookups.foldlM
    (fun acc lookup => do
      let df ← do_merge acc.2 lookup.file_name lookup.columns_to_keep
        lookup.join_column fetch
      pure (acc.1 ++ [lookup.required], df))
    ([], data_df)

/-- Second loop of data_enrichment: run the missing column detector once
per collected required column list, concatenating the anomaly frames onto
an initially empty frame. -/
def missingStage (data_df : DFrame) (required_columns : List (List String))
    (identifier_column : String) : Except String DFrame :=
  required_columns.foldlM
    (fun anomalies column => do
      let det ← missing_column_detector data_df column identifier_column
      pure (concatDF anomalies det))
    DFrame.empty

/-- Embeds data_enrichment of src/enrichment_method.py: fold the joins,
detect missing columns, then, when the flag is the string "true", run the
marine mismatch detector on the joined frame and prepend its anomalies. -/
def data_enrichment (data_df : DFrame) (marine_mismatch_check : String)
    (survey_column period_column : String)
    (fetch : String → Except String DFrame) (lookups : List LookupSpec)
    (identifier_column : String) : Except String (DFrame × DFrame) := do
  let step1 ← joinLookups data_df lookups fetch
  let anomalies ← missingStage step1.2 step1.1 identifier_column
  if marine_mismatch_check = "true" then
    let marine_anomalies ← marine_mismatch_detector step1.2 survey_column
      "marine" period_column identifier_column
    pure (step1.2, concatDF marine_anomalies anomalies)
  else
    pure (step1.2, anomalies)

/-- Outcome of the lambda handler: either the enriched data and the
anomalies under the success flag, or a single error message and no data
output at all. -/
inductive HandlerResult where
  | success (data anomalies : DFrame)
  | failure (error : String)
  deriving DecidableEq

/-- Embeds the success and exception paths of lambda_handler around the
enrichment core (JSON serialization and environment plumbing are external
glue and omitted): an exception anywhere in the core yields a response
carrying only the error message. -/
def lambda_handler (data_df : DFrame) (marine_mismatch_check : String)
    (survey_column period_column : String)
    (fetch : String → Except String DFrame) (lookups : List LookupSpec)
    (identifier_column : String) : HandlerResult :=
  match data_enrichment data_df marine_mismatch_check survey_column
      period_column fetch lookups identifier_column with
  | .ok out => .success out.1 out.2
  | .error e => .failure e

/-- Number of lookup rows whose join-column value equals that of the
given primary row. -/
def matchCount (L : DFrame) (j : String) (lr : Row) : Nat :=
  (L.rows.filter (fun rr => getCell rr j == getCell lr j)).length

/-- The anomaly rows contributed by one checked column inside
missing_column_detector, before the final projection: the null rows of
the input tagged with the issue text. -/
def missingPieceRows (data : DFrame) (c : String) : List Row :=
  (data.rows.filter (fun r => (getCell r c).isNone)).map
    (fun r => setEntry r "issue" (some (c ++ " missing in lookup.")))

/- ### Concrete fixture frames used by the witness checks -/

/-- A small primary frame: responder 1 reports survey 076, responder 2
reports survey 066. -/
def sampleData : DFrame := ⟨["responder_id", "survey", "period"],
  [[("responder_id", some "1"), ("survey", some "076"), ("period", some "202009")],
   [("responder_id", some "2"), ("survey", some "066"), ("period", some "202009")]]⟩

/-- A small lookup frame keyed by responder_id; it has no entry for
responder 2. -/
def sampleLookup : DFrame := ⟨["responder_id", "county", "marine"],
  [[("responder_id", some "1"), ("county", some "5"), ("marine", some "n")]]⟩

/-- An already joined frame used to exercise the marine mismatch
detector directly: one row matches both conditions, one row has a null
flag, one row has a different survey code. -/
def sampleMarine : DFrame := ⟨["responder_id", "survey", "period", "marine"],
  [[("responder_id", some "1"), ("survey", some "076"),
    ("period", some "202009"), ("marine", some "n")],
   [("responder_id", some "2"), ("survey", some "076"),
    ("period", some "202009"), ("marine", none)],
   [("responder_id", some "3"), ("survey", some "066"),
    ("period", some "202009"), ("marine", some "n")]]⟩

/-- A frame with null entries used to exercise the missing column
detector: one null county and two null regions. -/
def sampleMissData : DFrame := ⟨["responder_id", "county", "region"],
  [[("responder_id", some "1"), ("county", some "5"), ("region", none)],
   [("responder_id", some "2"), ("county", none), ("region", none)]]⟩

/-- A fetch collaborator that always returns the sample lookup. -/
def sampleFetch : String → Except String DFrame := fun _ => .ok sampleLookup

/-- A fetch collaborator whose retrieval always fails. -/
def sampleFetchFail : String → Except String DFrame := fun _ => .error "AWS Error"

/-- A single lookup configuration joining the sample lookup on
responder_id and requiring the county column. -/
def sampleSpecs : List LookupSpec :=
  [⟨["county"], "lookupfile", ["responder_id", "county", "marine"], "responder_id"⟩]

/-- The enriched frame produced by running the sample configuration. -/
def sampleEnriched : DFrame := ⟨["responder_id", "survey", "period", "county", "marine"],
  [[("responder_id", some "1"), ("survey", some "076"), ("period", some "202009"),
    ("county", some "5"), ("marine", some "n")],
   [("responder_id", some "2"), ("survey", some "066"), ("period", some "202009"),
    ("county", none), ("marine", none)]]⟩

/-- The anomalies frame produced by the sample configuration with the
marine check enabled: the marine anomaly precedes the missing anomaly. -/
def sampleAnoms : DFrame := ⟨["responder_id", "issue", "survey", "marine", "period"],
  [[("responder_id", some "1"),
    ("issue", some "Reference should not produce marine data."),
    ("survey", some "076"), ("marine", some "n"), ("period", some "202009")],
   [("responder_id", some "2"), ("issue", some "county missing in lookup.")]]⟩

/-- The anomalies frame produced by the sample configuration with the
marine check disabled. -/
def sampleAnomsNoMarine : DFrame := ⟨["responder_id", "issue"],
  [[("responder_id", some "2"), ("issue", some "county missing in lookup.")]]⟩

/- ### Basic lemmas about the table model -/

theorem except_bind_ok {α β : Type} (a : α) (f : α → Except String β) :
    ((Except.ok a : Except String α) >>= f) = f a := rfl

theorem except_bind_error {α β : Type} (e : String) (f : α → Except String β) :
    ((Except.error e : Except String α) >>= f) = .error e := rfl

theorem except_pure_bind {α β : Type} (a : α) (f : α → Except String β) :
    (Except.ok a : Except String α).bind f = f a := rfl

theorem except_error_bind {α β : Type} (e : String) (f : α → Except String β) :
    (Except.error e : Except String α).bind f = .error e := rfl

theorem concatDF_rows (a b : DFrame) : (concatDF a b).rows = a.rows ++ b.rows := rfl

theorem mem_concatDF_cols_left {x : String} (a b : DFrame) (h : x ∈ a.cols) :
    x ∈ (concatDF a b).cols := by
  simp only [concatDF, List.mem_append]
  exact Or.inl h

theorem mem_concatDF_cols_right {x : String} (a b : DFrame) (h : x ∈ b.cols) :
    x ∈ (concatDF a b).cols := by
  by_cases hx : x ∈ a.cols
  · exact mem_concatDF_cols_left a b hx
  · simp only [concatDF, List.mem_append]
    refine Or.inr (List.mem_filter.2 ⟨h, ?_⟩)
    simpa using hx

theorem lookup_map_proj_mem {cs : List String} {g : String → Cell} {j : String}
    (h : j ∈ cs) : (cs.map (fun c => (c, g c))).lookup j = some (g j) := by
  induction cs with
  | nil => cases h
  | cons c t ih =>
    simp only [List.map_cons, List.lookup_cons]
    cases hbeq : j == c with
    | true =>
      have hj : j = c := eq_of_beq hbeq
      subst hj
      rfl
    | false =>
      have hne : j ≠ c := ne_of_beq_false hbeq
      have ht : j ∈ t := by
        rcases List.mem_cons.1 h with h1 | h2
        · exact absurd h1 hne
        · exact h2
      exact ih ht

theorem lookup_map_proj_not_mem {cs : List String} {g : String → Cell} {j : String}
    (h : j ∉ cs) : (cs.map (fun c => (c, g c))).lookup j = none := by
  rw [List.lookup_eq_none_iff]
  intro p hp
  obtain ⟨c, hc, rfl⟩ := List.mem_map.1 hp
  have hne : j ≠ c := fun e => h (e ▸ hc)
  simpa using hne

theorem getCell_map_proj_mem {cs : List String} {r : Row} {j : String} (h : j ∈ cs) :
    getCell (cs.map (fun c => (c, getCell r c))) j = getCell r j := by
  unfold getCell
  rw [lookup_map_proj_mem h]

theorem lookup_filter_self {r : Row} {c : String} :
    (r.filter (fun p => p.1 != c)).lookup c = none := by
  rw [List.lookup_eq_none_iff]
  intro p hp
  have h2 := (List.mem_filter.1 hp).2
  simp only [bne_iff_ne, ne_eq] at h2
  simpa using fun e => h2 e.symm

theorem lookup_filter_ne {r : Row} {c k : String} (h : k ≠ c) :
    (r.filter (fun p => p.1 != c)).lookup k = r.lookup k := by
  induction r with
  | nil => rfl
  | cons p t ih =>
    obtain ⟨k0, v0⟩ := p
    by_cases hp : k0 = c
    · have hf : (k0 != c) = false := by simp [hp]
      have hk : (k == k0) = false := by
        have hne : k ≠ k0 := by rw [hp]; exact h
        simpa using hne
      simp only [List.filter_cons, hf, Bool.false_eq_true, if_false]
      rw [ih, List.lookup_cons, hk]
    · have hf : (k0 != c) = true := by simpa using hp
      simp only [List.filter_cons, hf, if_true]
      rw [List.lookup_cons, List.lookup_cons]
      cases hkk : k == k0
      · simp only [hkk]
        exact ih
      · simp only [hkk]

theorem getCell_setEntry_self (r : Row) (c : String) (v : Cell) :
    getCell (setEntry r c v) c = v := by
  unfold setEntry getCell
  rw [List.lookup_append, lookup_filter_self]
  simp [List.lookup_cons]

theorem getCell_setEntry_ne (r : Row) {c k : String} (v : Cell) (h : k ≠ c) :
    getCell (setEntry r c v) k = getCell r k := by
  unfold setEntry getCell
  rw [List.lookup_append, lookup_filter_ne h]
  have hk : ([(c, v)].lookup k) = none := by
    have : (k == c) = false := by simpa using h
    simp [List.lookup_cons, this]
  rw [hk, Option.or_none]

theorem length_le_sum_map {α : Type} (l : List α) (f : α → Nat)
    (h : ∀ x ∈ l, 1 ≤ f x) : l.length ≤ (l.map f).sum := by
  induction l with
  | nil => simp
  | cons a t ih =>
    simp only [List.map_cons, List.sum_cons, List.length_cons]
    have h1 := h a (List.mem_cons_self a t)
    have h2 := ih (fun x hx => h x (List.mem_cons_of_mem a hx))
    omega

theorem sum_map_of_const_one {α : Type} (l : List α) (f : α → Nat)
    (h : ∀ x ∈ l, f x = 1) : (l.map f).sum = l.length := by
  induction l with
  | nil => simp
  | cons a t ih =>
    simp only [List.map_cons, List.sum_cons, List.length_cons]
    have h1 := h a (List.mem_cons_self a t)
    have h2 := ih (fun x hx => h x (List.mem_cons_of_mem a hx))
    omega

theorem length_filter_key_le_one {α : Type} (l : List α) (f : α → Cell) (k : Cell)
    (h : (l.map f).Nodup) : (l.filter (fun x => f x == k)).length ≤ 1 := by
  induction l with
  | nil => simp
  | cons a t ih =>
    simp only [List.map_cons, List.nodup_cons] at h
    obtain ⟨hna, hnt⟩ := h
    by_cases ha : f a = k
    · have hb : (f a == k) = true := by simpa using ha
      have hempty : t.filter (fun x => f x == k) = [] := by
        rw [List.filter_eq_nil_iff]
        intro x hx hbeq
        have hfx : f x = k := by simpa using hbeq
        exact hna (by rw [← ha] at hfx; exact hfx ▸ List.mem_map_of_mem f hx)
      simp [List.filter_cons, hb, hempty]
    · have hb : (f a == k) = false := by simpa using ha
      simp only [List.filter_cons, hb, Bool.false_eq_true, if_false]
      exact ih hnt

theorem length_flatMap_sum {α β : Type} (l : List α) (f : α → List β) :
    (l.flatMap f).length = (l.map (fun a => (f a).length)).sum := by
  induction l with
  | nil => rfl
  | cons a t ih =>
    simp only [List.flatMap_cons, List.length_append, List.map_cons, List.sum_cons, ih]

theorem length_flatten_sum {α : Type} (L : List (List α)) :
    L.flatten.length = (L.map List.length).sum := by
  induction L with
  | nil => rfl
  | cons a t ih =>
    simp only [List.flatten_cons, List.length_append, List.map_cons, List.sum_cons, ih]

theorem mem_setCol_cols_of_mem {df : DFrame} {c v x : String} (h : x ∈ df.cols) :
    x ∈ (setCol df c v).cols := by
  simp only [setCol]
  split
  · exact h
  · exact List.mem_append_left _ h

theorem self_mem_setCol_cols (df : DFrame) (c v : String) : c ∈ (setCol df c v).cols := by
  simp only [setCol]
  split
  · assumption
  · exact List.mem_append_right _ (by simp)

/- ### Characterization of the missing column detector -/

theorem missing_fold_spec (data : DFrame) :
    ∀ (cs : List String) (acc : DFrame), (∀ c ∈ cs, c ∈ data.cols) →
      ∃ res,
        cs.foldlM
          (fun data_without_columns column_to_check => do
            let data_without_column ← filterNull data column_to_check
            let data_without_column :=
              setCol data_without_column "issue"
                (column_to_check ++ " missing in lookup.")
            pure (concatDF data_without_columns data_without_column))
          acc = .ok res ∧
        res.rows = acc.rows ++ (cs.map (missingPieceRows data)).flatten ∧
        (∀ x, x ∈ acc.cols → x ∈ res.cols) ∧
        (cs ≠ [] → (∀ x, x ∈ data.cols → x ∈ res.cols) ∧ "issue" ∈ res.cols) := by
  intro cs
  induction cs with
  | nil =>
    intro acc _
    exact ⟨acc, rfl, by simp, fun x hx => hx, by simp⟩
  | cons c t ih =>
    intro acc hmem
    have hc : c ∈ data.cols := hmem c (List.mem_cons_self c t)
    have hrest : ∀ x ∈ t, x ∈ data.cols := fun x hx => hmem x (List.mem_cons_of_mem c hx)
    have hfn : filterNull data c =
        .ok ⟨data.cols, data.rows.filter (fun r => (getCell r c).isNone)⟩ := by
      unfold filterNull
      rw [if_pos hc]
    set piece := setCol ⟨data.cols, data.rows.filter (fun r => (getCell r c).isNone)⟩
      "issue" (c ++ " missing in lookup.") with hpiece
    obtain ⟨res, hres, hrows, hmono, hcols⟩ := ih (concatDF acc piece) hrest
    refine ⟨res, ?_, ?_, ?_, ?_⟩
    · rw [List.foldlM_cons, hfn]
      exact hres
    · rw [hrows]
      have hpr : piece.rows = missingPieceRows data c := rfl
      simp only [concatDF_rows, hpr, List.map_cons, List.flatten_cons, List.append_assoc]
    · intro x hx
      exact hmono x (mem_concatDF_cols_left acc piece hx)
    · intro _
      constructor
      · intro x hx
        refine hmono x (mem_concatDF_cols_right acc piece ?_)
        exact mem_setCol_cols_of_mem hx
      · exact hmono _ (mem_concatDF_cols_right acc piece (self_mem_setCol_cols _ _ _))

theorem selectCols_ok_inv {df : DFrame} {cs : List String} {piece : DFrame}
    (h : selectCols df cs = .ok piece) :
    piece = ⟨cs, df.rows.map (fun r => cs.map (fun c => (c, getCell r c)))⟩ := by
  unfold selectCols at h
  split at h
  · exact (Except.ok.inj h).symm
  · cases h

theorem missing_fold_rows_inv (data : DFrame) :
    ∀ (cs : List String) (acc res : DFrame),
      cs.foldlM
        (fun data_without_columns column_to_check => do
          let data_without_column ← filterNull data column_to_check
          let data_without_column :=
            setCol data_without_column "issue"
              (column_to_check ++ " missing in lookup.")
          pure (concatDF data_without_columns data_without_column))
        acc = .ok res →
      ∀ r ∈ res.rows, r ∈ acc.rows ∨
        ∃ c ∈ cs, getCell r "issue" = some (c ++ " missing in lookup.") := by
  intro cs
  induction cs with
  | nil =>
    intro acc res h r hr
    have hae : acc = res := Except.ok.inj h
    exact Or.inl (hae ▸ hr)
  | cons c t ih =>
    intro acc res h r hr
    rw [List.foldlM_cons] at h
    cases hfn : filterNull data c with
    | error e =>
      rw [hfn] at h
      exact Except.noConfusion h
    | ok d =>
      rw [hfn] at h
      have h2 := ih (concatDF acc (setCol d "issue" (c ++ " missing in lookup."))) res h
      rcases h2 r hr with hacc | ⟨c0, hc0, hcell⟩
      · rw [concatDF_rows] at hacc
        rcases List.mem_append.1 hacc with h1 | h1
        · exact Or.inl h1
        · have hsr : (setCol d "issue" (c ++ " missing in lookup.")).rows =
              d.rows.map (fun r => setEntry r "issue"
                (some (c ++ " missing in lookup."))) := rfl
          rw [hsr] at h1
          obtain ⟨r0, _, rfl⟩ := List.mem_map.1 h1
          exact Or.inr ⟨c, List.mem_cons_self c t, getCell_setEntry_self r0 "issue" _⟩
      · exact Or.inr ⟨c0, List.mem_cons_of_mem c hc0, hcell⟩

theorem missing_column_detector_rows_issue {data : DFrame} {cs : List String}
    {idc : String} {piece : DFrame}
    (h : missing_column_detector data cs idc = .ok piece) :
    ∀ r ∈ piece.rows, ∃ c ∈ cs,
      getCell r "issue" = some (c ++ " missing in lookup.") := by
  unfold missing_column_detector at h
  cases hfold : cs.foldlM
      (fun data_without_columns column_to_check => do
        let data_without_column ← filterNull data column_to_check
        let data_without_column :=
          setCol data_without_column "issue"
            (column_to_check ++ " missing in lookup.")
        pure (concatDF data_without_columns data_without_column))
      DFrame.empty with
  | error e =>
    rw [hfold] at h
    exact Except.noConfusion h
  | ok res =>
    rw [hfold] at h
    have hpiece := selectCols_ok_inv h
    intro r hr
    rw [hpiece] at hr
    obtain ⟨r0, hr0, rfl⟩ := List.mem_map.1 hr
    rcases missing_fold_rows_inv data cs DFrame.empty res hfold r0 hr0 with habs | ⟨c, hc, hcell⟩
    · cases habs
    · refine ⟨c, hc, ?_⟩
      rw [getCell_map_proj_mem (by simp)]
      exact hcell

theorem missing_column_detector_spec (data : DFrame) (cs : List String) (idc : String)
    (hcs : ∀ c ∈ cs, c ∈ data.cols) (hid : idc ∈ data.cols) (hne : cs ≠ []) :
    ∃ piece, missing_column_detector data cs idc = .ok piece ∧
      piece.cols = [idc, "issue"] ∧
      piece.rows =
        ((cs.map (missingPieceRows data)).flatten).map
          (fun r => [idc, "issue"].map (fun c => (c, getCell r c))) ∧
      piece.rows.length =
        (cs.map (fun c =>
          (data.rows.filter (fun r => (getCell r c).isNone)).length)).sum ∧
      ∀ r ∈ piece.rows, ∃ c ∈ cs, getCell r "issue" = some (c ++ " missing in lookup.") := by
  obtain ⟨res, hres, hrows, _, hcols⟩ := missing_fold_spec data cs DFrame.empty hcs
  obtain ⟨hsub, hissue⟩ := hcols hne
  have hsel : ∀ c ∈ [idc, "issue"], c ∈ res.cols := by
    intro c hcmem
    rcases List.mem_cons.1 hcmem with h1 | h2
    · exact h1 ▸ hsub idc hid
    · have : c = "issue" := by simpa using h2
      exact this ▸ hissue
  have hflat : res.rows = (cs.map (missingPieceRows data)).flatten := by
    rw [hrows]
    rfl
  refine ⟨⟨[idc, "issue"],
      res.rows.map (fun r => [idc, "issue"].map (fun c => (c, getCell r c)))⟩, ?_, rfl,
      by rw [hflat], ?_, ?_⟩
  · unfold missing_column_detector
    rw [hres]
    show selectCols res [idc, "issue"] = _
    unfold selectCols
    rw [if_pos hsel]
  · rw [List.length_map, hflat, length_flatten_sum, List.map_map]
    have hmc : List.map (List.length ∘ missingPieceRows data) cs =
        List.map (fun c =>
          (List.filter (fun r => Option.isNone (getCell r c)) data.rows).length) cs := by
      apply List.map_congr_left
      intro c _
      simp [missingPieceRows, Function.comp]
    rw [hmc]
  · intro r hr
    obtain ⟨r0, hr0, rectl⟩ := List.mem_map.1 hr
    rw [hflat] at hr0
    obtain ⟨lrows, hlrows, hr0mem⟩ := List.mem_flatten.1 hr0
    obtain ⟨c, hcmem, hcrows⟩ := List.mem_map.1 hlrows
    refine ⟨c, hcmem, ?_⟩
    rw [← rectl]
    have hg : getCell ([idc, "issue"].map (fun col => (col, getCell r0 col))) "issue" =
        getCell r0 "issue" := getCell_map_proj_mem (by simp)
    rw [hg]
    rw [← hcrows] at hr0mem
    obtain ⟨r1, _, hr1⟩ := List.mem_map.1 hr0mem
    rw [← hr1]
    exact getCell_setEntry_self r1 "issue" _

/- ### Characterization of the enrichment orchestration -/

theorem forall₂_mem_right {α β : Type} {R : α → β → Prop} :
    ∀ {l1 : List α} {l2 : List β}, List.Forall₂ R l1 l2 →
      ∀ b ∈ l2, ∃ a ∈ l1, R a b := by
  intro l1 l2 h
  induction h with
  | nil =>
    intro b hb
    cases hb
  | cons hR _ ih =>
    intro b hb
    rcases List.mem_cons.1 hb with h1 | h2
    · exact ⟨_, List.mem_cons_self _ _, h1 ▸ hR⟩
    · obtain ⟨a, ha, hab⟩ := ih b h2
      exact ⟨a, List.mem_cons_of_mem _ ha, hab⟩

theorem missingStage_spec (mdf : DFrame) (idc : String) :
    ∀ (rc : List (List String)) (acc res : DFrame),
      rc.foldlM
        (fun anomalies column => do
          let det ← missing_column_detector mdf column idc
          pure (concatDF anomalies det))
        acc = .ok res →
      ∃ pieces, List.Forall₂ (fun cs piece =>
          missing_column_detector mdf cs idc = .ok piece) rc pieces ∧
        res.rows = acc.rows ++ (pieces.map DFrame.rows).flatten := by
  intro rc
  induction rc with
  | nil =>
    intro acc res h
    have hae : acc = res := Except.ok.inj h
    exact ⟨[], .nil, by simp [hae]⟩
  | cons cs t ih =>
    intro acc res h
    rw [List.foldlM_cons] at h
    cases hdet : missing_column_detector mdf cs idc with
    | error e =>
      rw [hdet] at h
      exact Except.noConfusion h
    | ok piece =>
      rw [hdet] at h
      obtain ⟨pieces, hfa, hrows⟩ := ih (concatDF acc piece) res h
      refine ⟨piece :: pieces, .cons hdet hfa, ?_⟩
      rw [hrows]
      simp [concatDF_rows, List.append_assoc]

theorem data_enrichment_eq (data_df : DFrame) (check s p : String)
    (fetch : String → Except String DFrame) (lks : List LookupSpec) (idc : String) :
    data_enrichment data_df check s p fetch lks idc =
      (joinLookups data_df lks fetch).bind (fun step1 =>
        (missingStage step1.2 step1.1 idc).bind (fun anomalies =>
          if check = "true" then
            (marine_mismatch_detector step1.2 s "marine" p idc).bind
              (fun m => .ok (step1.2, concatDF m anomalies))
          else .ok (step1.2, anomalies))) := rfl

theorem data_enrichment_ok_inv {data_df : DFrame} {check s p : String}
    {fetch : String → Except String DFrame} {lks : List LookupSpec} {idc : String}
    {out anoms : DFrame}
    (h : data_enrichment data_df check s p fetch lks idc = .ok (out, anoms)) :
    ∃ rc an, joinLookups data_df lks fetch = .ok (rc, out) ∧
      missingStage out rc idc = .ok an ∧
      ((check = "true" ∧ ∃ m, marine_mismatch_detector out s "marine" p idc = .ok m ∧
          anoms = concatDF m an) ∨
       (check ≠ "true" ∧ anoms = an)) := by
  rw [data_enrichment_eq] at h
  cases hj : joinLookups data_df lks fetch with
  | error e =>
    rw [hj] at h
    exact Except.noConfusion h
  | ok step1 =>
    obtain ⟨rc, mdf⟩ := step1
    rw [hj, except_pure_bind] at h
    dsimp only at h
    cases hm : missingStage mdf rc idc with
    | error e =>
      rw [hm, except_error_bind] at h
      exact Except.noConfusion h
    | ok an =>
      rw [hm, except_pure_bind] at h
      by_cases hc : check = "true"
      · rw [if_pos hc] at h
        cases hmar : marine_mismatch_detector mdf s "marine" p idc with
        | error e =>
          rw [hmar, except_error_bind] at h
          exact Except.noConfusion h
        | ok m =>
          rw [hmar, except_pure_bind] at h
          have hpair := Except.ok.inj h
          have hout : mdf = out := congrArg Prod.fst hpair
          have hanoms : concatDF m an = anoms := congrArg Prod.snd hpair
          subst hout
          exact ⟨rc, an, rfl, hm, Or.inl ⟨hc, m, hmar, hanoms.symm⟩⟩
      · rw [if_neg hc] at h
        have hpair := Except.ok.inj h
        have hout : mdf = out := congrArg Prod.fst hpair
        have hanoms : an = anoms := congrArg Prod.snd hpair
        subst hout
        exact ⟨rc, an, rfl, hm, Or.inr ⟨hc, hanoms.symm⟩⟩

theorem missing_issue_ne_marine (c : String) :
    c ++ " missing in lookup." ≠ "Reference should not produce marine data." := by
  intro h
  have hd : c.data ++ (" missing in lookup." : String).data =
      ("Reference should not produce marine data." : String).data := by
    have h2 := congrArg String.data h
    simpa using h2
  have hrev := congrArg List.reverse hd
  rw [List.reverse_append] at hrev
  have htake := congrArg (List.take 19) hrev
  rw [List.take_left' (by decide :
      ((" missing in lookup." : String).data.reverse).length = 19)] at htake
  exact absurd htake (by decide)

/- ### Characterization of the merge -/

theorem matchesOf_selectCols (L : DFrame) (keep : List String) (j : String)
    (hjk : j ∈ keep) (lr : Row) :
    matchesOf ⟨keep, L.rows.map (fun r => keep.map (fun c => (c, getCell r c)))⟩ j lr =
      (L.rows.filter (fun rr => getCell rr j == getCell lr j)).map
        (fun r => keep.map (fun c => (c, getCell r c))) := by
  unfold matchesOf
  rw [List.filter_map]
  congr 1
  apply List.filter_congr
  intro r _
  simp only [Function.comp]
  rw [getCell_map_proj_mem hjk]

theorem getCell_eq_getD (r : Row) (c : String) :
    getCell r c = (r.lookup c).getD none := by
  unfold getCell
  cases r.lookup c <;> rfl

theorem getCell_mkJoinRow_unmatched {lcols keep : List String} {j : String} (lr : Row)
    (hov : ∀ c ∈ keep, c = j ∨ c ∉ lcols) {c : String} (hc : c ∈ keep) (hcj : c ≠ j) :
    getCell (mkJoinRow lcols keep j lr none) c = none := by
  unfold mkJoinRow
  rw [getCell_eq_getD, List.lookup_append]
  have hleft : (lcols.map (fun c0 => (leftColName keep j c0, getCell lr c0))).lookup c
      = none := by
    rw [List.lookup_eq_none_iff]
    intro p hp
    obtain ⟨c0, hc0, rfl⟩ := List.mem_map.1 hp
    have hname : leftColName keep j c0 = c0 := by
      unfold leftColName
      rw [if_neg]
      rintro ⟨hne0, hmem0⟩
      rcases hov c0 hmem0 with h1 | h2
      · exact hne0 h1
      · exact h2 hc0
    have hcne : c ≠ c0 := by
      intro e
      rcases hov c hc with h1 | h2
      · exact hcj h1
      · exact h2 (e ▸ hc0)
    simp only [hname]
    simpa using hcne
  rw [hleft, Option.none_or]
  have hright : ((keep.filter (fun c0 => c0 != j)).map
      (fun c0 => (rightColName lcols j c0,
        (none : Option Row).bind (fun r => getCell r c0)))) =
      (keep.filter (fun c0 => c0 != j)).map (fun c0 => (c0, (none : Cell))) := by
    apply List.map_congr_left
    intro c0 hc0
    have hmem := (List.mem_filter.1 hc0).1
    have hname : rightColName lcols j c0 = c0 := by
      unfold rightColName
      rw [if_neg]
      rintro ⟨hne0, hmem0⟩
      rcases hov c0 hmem with h1 | h2
      · exact hne0 h1
      · exact h2 hmem0
    rw [hname]
    rfl
  rw [hright, lookup_map_proj_mem (g := fun _ => (none : Cell))
    (List.mem_filter.2 ⟨hc, by simpa using hcj⟩)]
  rfl

/- ### The claims -/

/-- C1: with the join column present on both sides and every kept column
present in the lookup, do_merge performs a left outer join: the output
has one row per (primary row, lookup match) pair plus a null padded row
per unmatched primary row, hence its length is the sum over primary rows
of max 1 (match count); the primary length is never exceeded downward,
with equality when the lookup join-column values are pairwise distinct;
and, when the kept lookup columns are fresh, an unmatched primary row
appears null padded, reading null on every lookup-origin column. -/
theorem C1_do_merge_left_join (P L : DFrame) (keep : List String) (j fn : String)
    (hjP : j ∈ P.cols) (hjk : j ∈ keep) (hkeep : ∀ c ∈ keep, c ∈ L.cols) :
    ∃ out, do_merge P fn keep j (fun _ => .ok L) = .ok out ∧
      out.rows.length = (P.rows.map (fun lr => max 1 (matchCount L j lr))).sum ∧
      P.rows.length ≤ out.rows.length ∧
      ((L.rows.map (fun rr => getCell rr j)).Nodup →
        out.rows.length = P.rows.length) ∧
      ((∀ c ∈ keep, c = j ∨ c ∉ P.cols) →
        ∀ lr ∈ P.rows, matchCount L j lr = 0 →
          mkJoinRow P.cols keep j lr none ∈ out.rows ∧
          ∀ c ∈ keep, c ≠ j →
            getCell (mkJoinRow P.cols keep j lr none) c = none) := by
  have hdo : do_merge P fn keep j (fun _ => .ok L) =
      (selectCols L keep).bind (fun restricted => mergeLeft P restricted j) := rfl
  have hsel : selectCols L keep = .ok
      ⟨keep, L.rows.map (fun r => keep.map (fun c => (c, getCell r c)))⟩ := by
    unfold selectCols
    rw [if_pos hkeep]
  set restricted : DFrame :=
    ⟨keep, L.rows.map (fun r => keep.map (fun c => (c, getCell r c)))⟩ with hres
  have hmatchlen : ∀ lr : Row,
      (matchesOf restricted j lr).length = matchCount L j lr := by
    intro lr
    rw [hres, matchesOf_selectCols L keep j hjk lr, List.length_map]
    rfl
  set outRows : List Row := P.rows.flatMap (fun lr =>
    let ms := matchesOf restricted j lr
    if ms.isEmpty then [mkJoinRow P.cols restricted.cols j lr none]
    else ms.map (fun rr => mkJoinRow P.cols restricted.cols j lr (some rr)))
    with houtRows
  have hstep : ∀ lr : Row,
      (let ms := matchesOf restricted j lr
       if ms.isEmpty then [mkJoinRow P.cols restricted.cols j lr none]
       else ms.map (fun rr =>
         mkJoinRow P.cols restricted.cols j lr (some rr))).length =
      max 1 (matchCount L j lr) := by
    intro lr
    by_cases hE : (matchesOf restricted j lr).isEmpty = true
    · have hms : matchesOf restricted j lr = [] := by simpa using hE
      have h0 : matchCount L j lr = 0 := by
        rw [← hmatchlen lr, hms]
        rfl
      simp [hms, h0]
    · have hms : matchesOf restricted j lr ≠ [] := by
        intro e
        rw [e] at hE
        exact hE rfl
      have hpos : 1 ≤ matchCount L j lr := by
        rw [← hmatchlen lr]
        exact List.length_pos.2 hms
      simp only [if_neg hE, List.length_map, hmatchlen lr]
      exact (Nat.max_eq_right hpos).symm
  have hlen : outRows.length =
      (P.rows.map (fun lr => max 1 (matchCount L j lr))).sum := by
    rw [houtRows, length_flatMap_sum]
    exact congrArg List.sum (List.map_congr_left (fun lr _ => hstep lr))
  refine ⟨⟨P.cols.map (leftColName restricted.cols j) ++
      (restricted.cols.filter (fun c => c != j)).map (rightColName P.cols j),
      outRows⟩, ?_, hlen, ?_, ?_, ?_⟩
  · rw [hdo, hsel, except_pure_bind]
    unfold mergeLeft
    rw [if_pos ⟨hjP, hjk⟩]
  · rw [hlen]
    exact length_le_sum_map P.rows _ (fun lr _ => Nat.le_max_left _ _)
  · intro hnodup
    rw [hlen]
    apply sum_map_of_const_one
    intro lr _
    have hle : matchCount L j lr ≤ 1 :=
      length_filter_key_le_one L.rows (fun rr => getCell rr j) (getCell lr j) hnodup
    exact Nat.max_eq_left hle
  · intro hov lr hlr h0
    have hms : matchesOf restricted j lr = [] := by
      apply List.eq_nil_of_length_eq_zero
      rw [hmatchlen lr, h0]
    constructor
    · refine List.mem_flatMap.2 ⟨lr, hlr, ?_⟩
      rw [hms]
      simp
    · intro c hcmem hcj
      exact getCell_mkJoinRow_unmatched lr hov hcmem hcj

/-- C1 witness: the theorem applied to the sample primary and lookup
frames, where responder 1 has a unique match and responder 2 none. -/
theorem C1_do_merge_left_join_witness :
    ("responder_id" ∈ sampleData.cols ∧
     "responder_id" ∈ ["responder_id", "county", "marine"] ∧
     (∀ c ∈ ["responder_id", "county", "marine"], c ∈ sampleLookup.cols)) ∧
    (∃ out, do_merge sampleData "lookupfile" ["responder_id", "county", "marine"]
        "responder_id" (fun _ => .ok sampleLookup) = .ok out ∧
      out.rows.length = (sampleData.rows.map
        (fun lr => max 1 (matchCount sampleLookup "responder_id" lr))).sum ∧
      sampleData.rows.length ≤ out.rows.length ∧
      ((sampleLookup.rows.map (fun rr => getCell rr "responder_id")).Nodup →
        out.rows.length = sampleData.rows.length) ∧
      ((∀ c ∈ ["responder_id", "county", "marine"],
          c = "responder_id" ∨ c ∉ sampleData.cols) →
        ∀ lr ∈ sampleData.rows, matchCount sampleLookup "responder_id" lr = 0 →
          mkJoinRow sampleData.cols ["responder_id", "county", "marine"]
            "responder_id" lr none ∈ out.rows ∧
          ∀ c ∈ ["responder_id", "county", "marine"], c ≠ "responder_id" →
            getCell (mkJoinRow sampleData.cols ["responder_id", "county", "marine"]
              "responder_id" lr none) c = none)) :=
  ⟨⟨by decide, by decide, by decide⟩,
   C1_do_merge_left_join sampleData sampleLookup
     ["responder_id", "county", "marine"] "responder_id" "lookupfile"
     (by decide) (by decide) (by decide)⟩

/-- C7: do_merge fails whenever the join column is absent from the
primary frame or from the lookup frame, or any column to keep is absent
from the lookup frame; the failure is the modelled KeyError, which the
spec taxonomy files as a ConfigurationError. -/
theorem C7_do_merge_missing_columns_error (P L : DFrame) (keep : List String)
    (j fn : String)
    (h : j ∉ P.cols ∨ j ∉ L.cols ∨ ∃ c ∈ keep, c ∉ L.cols) :
    ∃ e, do_merge P fn keep j (fun _ => .ok L) = .error e := by
  have hdo : do_merge P fn keep j (fun _ => .ok L) =
      (selectCols L keep).bind (fun restricted => mergeLeft P restricted j) := rfl
  by_cases hk : ∀ c ∈ keep, c ∈ L.cols
  · have hsel : selectCols L keep = .ok
        ⟨keep, L.rows.map (fun r => keep.map (fun c => (c, getCell r c)))⟩ := by
      unfold selectCols
      rw [if_pos hk]
    refine ⟨"KeyError: join column not found", ?_⟩
    rw [hdo, hsel, except_pure_bind]
    unfold mergeLeft
    rw [if_neg]
    rintro ⟨hjP, hjk⟩
    rcases h with h1 | h1 | ⟨c, hc, hcL⟩
    · exact h1 hjP
    · exact h1 (hk j hjk)
    · exact hcL (hk c hc)
  · refine ⟨"KeyError: column not found in frame", ?_⟩
    have hsel : selectCols L keep = .error "KeyError: column not found in frame" := by
      unfold selectCols
      rw [if_neg hk]
    rw [hdo, hsel, except_error_bind]

/-- C7 witness: the theorem applied to a lookup frame that lacks the
requested county column. -/
theorem C7_do_merge_missing_columns_error_witness :
    ("responder_id" ∉ (⟨["responder_id"], []⟩ : DFrame).cols ∨
     "responder_id" ∉ (⟨["other_id"], []⟩ : DFrame).cols ∨
     ∃ c ∈ ["responder_id", "county"], c ∉ (⟨["other_id"], []⟩ : DFrame).cols) ∧
    ∃ e, do_merge ⟨["responder_id"], []⟩ "lookupfile" ["responder_id", "county"]
      "responder_id" (fun _ => .ok ⟨["other_id"], []⟩) = .error e :=
  ⟨Or.inr (Or.inl (by decide)),
   C7_do_merge_missing_columns_error ⟨["responder_id"], []⟩ ⟨["other_id"], []⟩
     ["responder_id", "county"] "responder_id" "lookupfile"
     (Or.inr (Or.inl (by decide)))⟩

/-- C10: for every input table and identifier column, calling
missing_column_detector with an empty columns_to_check list fails with a
key error (the final projection looks up the identifier and issue columns
on the empty accumulator frame) instead of returning an empty anomaly
collection. -/
theorem C10_empty_check_list_errors (data : DFrame) (identifier_column : String) :
    missing_column_detector data [] identifier_column =
      .error "KeyError: column not found in frame" := by
  unfold missing_column_detector
  show selectCols DFrame.empty [identifier_column, "issue"] = _
  unfold selectCols
  have hneg : ¬ ∀ c ∈ [identifier_column, "issue"], c ∈ DFrame.empty.cols := by
    intro hall
    have h1 := hall identifier_column (by simp)
    simp [DFrame.empty] at h1
  rw [if_neg hneg]

/-- C3 counterexample: the claim quantifies over every column list, but on
the empty column list the detector does not return the claimed 0 anomaly
rows: it fails, because the final projection happens on the empty
accumulator frame even though no listed column has nulls. -/
theorem C3_counterexample :
    missing_column_detector ⟨["responder_id"], [[("responder_id", some "1")]]⟩ []
      "responder_id" = .error "KeyError: column not found in frame" := by
  rfl

/-- C3 (amended to nonempty column lists, listed columns present in the
table and an identifier column present in the table): detect_missing
returns exactly one anomaly row per (record, null listed column) pair, so
its row count is the sum over listed columns of the per-column null
counts, each row carries the issue text of its column, and the count is 0
when no listed column has nulls. -/
theorem C3_missing_counts (data : DFrame) (cs : List String) (idc : String)
    (hcs : ∀ c ∈ cs, c ∈ data.cols) (hid : idc ∈ data.cols) (hne : cs ≠ []) :
    ∃ anomalies, missing_column_detector data cs idc = .ok anomalies ∧
      anomalies.rows.length =
        (cs.map (fun c =>
          (data.rows.filter (fun r => (getCell r c).isNone)).length)).sum ∧
      ∀ r ∈ anomalies.rows, ∃ c ∈ cs,
        getCell r "issue" = some (c ++ " missing in lookup.") := by
  obtain ⟨piece, h1, _, _, h4, h5⟩ := missing_column_detector_spec data cs idc hcs hid hne
  exact ⟨piece, h1, h4, h5⟩

/-- C3 witness: the amended theorem applied to the sample frame with one
null county and two null regions. -/
theorem C3_missing_counts_witness :
    ((∀ c ∈ ["county", "region"], c ∈ sampleMissData.cols) ∧
     "responder_id" ∈ sampleMissData.cols ∧ (["county", "region"] : List String) ≠ []) ∧
    (∃ anomalies,
      missing_column_detector sampleMissData ["county", "region"] "responder_id" =
        .ok anomalies ∧
      anomalies.rows.length =
        (["county", "region"].map (fun c =>
          (sampleMissData.rows.filter (fun r => (getCell r c).isNone)).length)).sum ∧
      ∀ r ∈ anomalies.rows, ∃ c ∈ ["county", "region"],
        getCell r "issue" = some (c ++ " missing in lookup.")) :=
  ⟨⟨by decide, by decide, by decide⟩,
    C3_missing_counts sampleMissData ["county", "region"] "responder_id"
      (by decide) (by decide) (by decide)⟩

/-- C8 counterexample: the claim quantifies over every column list, but on
the genuinely empty table (no columns at all) the detector raises a key
error for a nonempty column list instead of returning an empty anomaly
collection. -/
theorem C8_counterexample :
    missing_column_detector ⟨[], []⟩ ["county"] "responder_id" =
      .error "KeyError: column not found in frame" := by
  rfl

/-- C8 (amended to a zero-row table whose columns contain the nonempty
listed columns and the identifier column): detect_missing does not fail
and returns an empty anomaly collection. -/
theorem C8_empty_table_ok (cols cs : List String) (idc : String)
    (hcs : ∀ c ∈ cs, c ∈ cols) (hid : idc ∈ cols) (hne : cs ≠ []) :
    missing_column_detector ⟨cols, []⟩ cs idc = .ok ⟨[idc, "issue"], []⟩ := by
  obtain ⟨piece, h1, hcols2, hrows, _, _⟩ :=
    missing_column_detector_spec ⟨cols, []⟩ cs idc hcs hid hne
  have hnil : piece.rows = [] := by
    rw [hrows]
    have hmp : ∀ c ∈ cs, missingPieceRows ⟨cols, []⟩ c = [] := fun c _ => rfl
    rw [List.map_congr_left hmp]
    simp
  obtain ⟨pc, pr⟩ := piece
  simp only at hcols2 hnil
  subst hcols2
  subst hnil
  exact h1

/-- C2: on any table containing the survey, flag, period and identifier
columns (all distinct from the reserved issue column), the marine
mismatch detector returns exactly one anomaly row per record with
survey_column equal to "076" and flag column equal to "n" (case-sensitive
exact match), each row carrying exactly the identifier, the issue text
"Reference should not produce marine data.", and the survey, flag and
period values; it returns an empty collection otherwise, in particular
when every matched survey row has a null flag entry. -/
theorem C2_marine_detector_rows (data : DFrame) (s c p idc : String)
    (hs : s ∈ data.cols) (hc : c ∈ data.cols) (hp : p ∈ data.cols)
    (hid : idc ∈ data.cols) (hs2 : s ≠ "issue") (hc2 : c ≠ "issue")
    (hp2 : p ≠ "issue") (hid2 : idc ≠ "issue") :
    marine_mismatch_detector data s c p idc = .ok
      ⟨[idc, "issue", s, c, p],
       (data.rows.filter
          (fun r => getCell r s == some "076" && getCell r c == some "n")).map
         (fun r => [(idc, getCell r idc),
                    ("issue", some "Reference should not produce marine data."),
                    (s, getCell r s), (c, getCell r c), (p, getCell r p)])⟩ := by
  unfold marine_mismatch_detector
  have hfe : filterEqEq data s "076" c "n" = .ok
      ⟨data.cols, data.rows.filter
        (fun r => getCell r s == some "076" && getCell r c == some "n")⟩ := by
    unfold filterEqEq
    rw [if_pos ⟨hs, hc⟩]
  rw [hfe]
  set bad := setCol
    ⟨data.cols, data.rows.filter
      (fun r => getCell r s == some "076" && getCell r c == some "n")⟩
    "issue" "Reference should not produce marine data." with hbad
  show selectCols bad [idc, "issue", s, c, p] = _
  have hmem : ∀ x ∈ [idc, "issue", s, c, p], x ∈ bad.cols := by
    intro x hx
    rcases hx with _ | ⟨_, hx1⟩
    · exact mem_setCol_cols_of_mem hid
    rcases hx1 with _ | ⟨_, hx2⟩
    · exact self_mem_setCol_cols _ _ _
    rcases hx2 with _ | ⟨_, hx3⟩
    · exact mem_setCol_cols_of_mem hs
    rcases hx3 with _ | ⟨_, hx4⟩
    · exact mem_setCol_cols_of_mem hc
    rcases hx4 with _ | ⟨_, hx5⟩
    · exact mem_setCol_cols_of_mem hp
    cases hx5
  unfold selectCols
  rw [if_pos hmem]
  refine congrArg Except.ok ?_
  have hbr : bad.rows =
      (data.rows.filter
        (fun r => getCell r s == some "076" && getCell r c == some "n")).map
        (fun r => setEntry r "issue"
          (some "Reference should not produce marine data.")) := rfl
  rw [DFrame.mk.injEq]
  refine ⟨rfl, ?_⟩
  rw [hbr, List.map_map]
  apply List.map_congr_left
  intro r _
  simp only [Function.comp, List.map_cons, List.map_nil]
  rw [getCell_setEntry_self,
    getCell_setEntry_ne r _ hid2, getCell_setEntry_ne r _ hs2,
    getCell_setEntry_ne r _ hc2, getCell_setEntry_ne r _ hp2]

/-- C2 witness: the theorem applied to the sample joined frame, in which
exactly the first row matches both marine mismatch conditions. -/
theorem C2_marine_detector_rows_witness :
    ("survey" ∈ sampleMarine.cols ∧ "marine" ∈ sampleMarine.cols ∧
     "period" ∈ sampleMarine.cols ∧ "responder_id" ∈ sampleMarine.cols ∧
     "survey" ≠ "issue" ∧ "marine" ≠ "issue" ∧
     "period" ≠ "issue" ∧ "responder_id" ≠ "issue") ∧
    marine_mismatch_detector sampleMarine "survey" "marine" "period" "responder_id" =
      .ok ⟨["responder_id", "issue", "survey", "marine", "period"],
        (sampleMarine.rows.filter
          (fun r => getCell r "survey" == some "076" &&
            getCell r "marine" == some "n")).map
          (fun r => [("responder_id", getCell r "responder_id"),
                     ("issue", some "Reference should not produce marine data."),
                     ("survey", getCell r "survey"), ("marine", getCell r "marine"),
                     ("period", getCell r "period")])⟩ :=
  ⟨⟨by decide, by decide, by decide, by decide, by decide, by decide, by decide,
    by decide⟩,
   C2_marine_detector_rows sampleMarine "survey" "marine" "period" "responder_id"
     (by decide) (by decide) (by decide) (by decide)
     (by decide) (by decide) (by decide) (by decide)⟩

/-- C4: any failure of a join (lookup retrieval included), of the missing
value detection, or of the enabled marine mismatch detection aborts the
whole enrichment with that single error: data_enrichment returns only the
error, and the handler response carries only the error message, with no
enriched data and no anomaly output. -/
theorem C4_failure_aborts_whole_call (data_df : DFrame) (check s p : String)
    (fetch : String → Except String DFrame) (lks : List LookupSpec) (idc e : String)
    (h : joinLookups data_df lks fetch = .error e ∨
      (∃ rc mdf, joinLookups data_df lks fetch = .ok (rc, mdf) ∧
        missingStage mdf rc idc = .error e) ∨
      (∃ rc mdf an, joinLookups data_df lks fetch = .ok (rc, mdf) ∧
        missingStage mdf rc idc = .ok an ∧ check = "true" ∧
        marine_mismatch_detector mdf s "marine" p idc = .error e)) :
    data_enrichment data_df check s p fetch lks idc = .error e ∧
    lambda_handler data_df check s p fetch lks idc = .failure e := by
  have hde : data_enrichment data_df check s p fetch lks idc = .error e := by
    rw [data_enrichment_eq]
    rcases h with h1 | ⟨rc, mdf, hj, hm⟩ | ⟨rc, mdf, an, hj, hm, hc, hmar⟩
    · rw [h1, except_error_bind]
    · rw [hj, except_pure_bind]
      dsimp only
      rw [hm, except_error_bind]
    · rw [hj, except_pure_bind]
      dsimp only
      rw [hm, except_pure_bind, if_pos hc, hmar, except_error_bind]
  refine ⟨hde, ?_⟩
  unfold lambda_handler
  rw [hde]

/-- C4 witness: the theorem applied to a failing fetch collaborator; the
join stage fails and the whole call returns only the error. -/
theorem C4_failure_aborts_whole_call_witness :
    joinLookups sampleData sampleSpecs sampleFetchFail = .error "AWS Error" ∧
    (data_enrichment sampleData "true" "survey" "period" sampleFetchFail
        sampleSpecs "responder_id" = .error "AWS Error" ∧
     lambda_handler sampleData "true" "survey" "period" sampleFetchFail
        sampleSpecs "responder_id" = .failure "AWS Error") :=
  ⟨rfl, C4_failure_aborts_whole_call sampleData "true" "survey" "period"
    sampleFetchFail sampleSpecs "responder_id" "AWS Error" (Or.inl rfl)⟩

/-- C5: in every successful enrichment the anomalies frame consists of
all marine mismatch anomalies (present exactly when the check is enabled)
followed by all missing value anomalies, the latter grouped per lookup in
the configured processing order. -/
theorem C5_anomaly_order (data_df : DFrame) (check s p : String)
    (fetch : String → Except String DFrame) (lks : List LookupSpec) (idc : String)
    (out anoms : DFrame)
    (h : data_enrichment data_df check s p fetch lks idc = .ok (out, anoms)) :
    ∃ rc pieces, joinLookups data_df lks fetch = .ok (rc, out) ∧
      List.Forall₂ (fun cs piece =>
        missing_column_detector out cs idc = .ok piece) rc pieces ∧
      ((check = "true" ∧ ∃ m, marine_mismatch_detector out s "marine" p idc = .ok m ∧
          anoms.rows = m.rows ++ (pieces.map DFrame.rows).flatten) ∨
       (check ≠ "true" ∧ anoms.rows = (pieces.map DFrame.rows).flatten)) := by
  obtain ⟨rc, an, hj, hm, hrest⟩ := data_enrichment_ok_inv h
  obtain ⟨pieces, hfa, hrows⟩ := missingStage_spec out idc rc DFrame.empty an hm
  have hanr : an.rows = (pieces.map DFrame.rows).flatten := by
    rw [hrows]
    rfl
  refine ⟨rc, pieces, hj, hfa, ?_⟩
  rcases hrest with ⟨hc, m, hmar, hanoms⟩ | ⟨hc, hanoms⟩
  · exact Or.inl ⟨hc, m, hmar, by rw [hanoms, concatDF_rows, hanr]⟩
  · exact Or.inr ⟨hc, by rw [hanoms, hanr]⟩

/-- C5 witness: the theorem applied to the sample run with the marine
check enabled, in which one marine anomaly precedes one missing county
anomaly. -/
theorem C5_anomaly_order_witness :
    data_enrichment sampleData "true" "survey" "period" sampleFetch sampleSpecs
      "responder_id" = .ok (sampleEnriched, sampleAnoms) ∧
    (∃ rc pieces, joinLookups sampleData sampleSpecs sampleFetch =
        .ok (rc, sampleEnriched) ∧
      List.Forall₂ (fun cs piece =>
        missing_column_detector sampleEnriched cs "responder_id" = .ok piece) rc pieces ∧
      ((("true" : String) = "true" ∧ ∃ m, marine_mismatch_detector sampleEnriched
          "survey" "marine" "period" "responder_id" = .ok m ∧
          sampleAnoms.rows = m.rows ++ (pieces.map DFrame.rows).flatten) ∨
       (("true" : String) ≠ "true" ∧
          sampleAnoms.rows = (pieces.map DFrame.rows).flatten))) :=
  ⟨rfl, C5_anomaly_order sampleData "true" "survey" "period" sampleFetch sampleSpecs
    "responder_id" sampleEnriched sampleAnoms rfl⟩

/-- C6: the marine mismatch detector contributes to a successful
enrichment exactly when the configuration flag is the string "true": with
the flag set the anomalies start with the detector output over the joined
frame, and for any other flag value no anomaly row carries the marine
issue text. -/
theorem C6_marine_flag_gate (data_df : DFrame) (check s p : String)
    (fetch : String → Except String DFrame) (lks : List LookupSpec) (idc : String)
    (out anoms : DFrame)
    (h : data_enrichment data_df check s p fetch lks idc = .ok (out, anoms)) :
    (check = "true" → ∃ m rest, marine_mismatch_detector out s "marine" p idc = .ok m ∧
      anoms.rows = m.rows ++ rest) ∧
    (check ≠ "true" → ∀ r ∈ anoms.rows,
      getCell r "issue" ≠ some "Reference should not produce marine data.") := by
  obtain ⟨rc, an, hj, hm, hrest⟩ := data_enrichment_ok_inv h
  obtain ⟨pieces, hfa, hrows⟩ := missingStage_spec out idc rc DFrame.empty an hm
  constructor
  · intro hc
    rcases hrest with ⟨_, m, hmar, hanoms⟩ | ⟨hc2, _⟩
    · exact ⟨m, an.rows, hmar, by rw [hanoms, concatDF_rows]⟩
    · exact absurd hc hc2
  · intro hc r hr
    rcases hrest with ⟨hc2, _⟩ | ⟨_, hanoms⟩
    · exact absurd hc2 hc
    · rw [hanoms] at hr
      have hflat : an.rows = (pieces.map DFrame.rows).flatten := by
        rw [hrows]
        rfl
      rw [hflat] at hr
      obtain ⟨lrows, hlr, hrmem⟩ := List.mem_flatten.1 hr
      obtain ⟨piece, hpmem, rfl⟩ := List.mem_map.1 hlr
      obtain ⟨cs, _, hdet⟩ := forall₂_mem_right hfa piece hpmem
      obtain ⟨c, _, hcell⟩ := missing_column_detector_rows_issue hdet r hrmem
      rw [hcell]
      intro heq
      exact missing_issue_ne_marine c (Option.some.inj heq)

/-- C6 witness: the theorem applied to the sample run with the marine
check disabled; the anomalies carry only the missing county issue. -/
theorem C6_marine_flag_gate_witness :
    data_enrichment sampleData "false" "survey" "period" sampleFetch sampleSpecs
      "responder_id" = .ok (sampleEnriched, sampleAnomsNoMarine) ∧
    ((("false" : String) = "true" → ∃ m rest, marine_mismatch_detector sampleEnriched
        "survey" "marine" "period" "responder_id" = .ok m ∧
        sampleAnomsNoMarine.rows = m.rows ++ rest) ∧
     (("false" : String) ≠ "true" → ∀ r ∈ sampleAnomsNoMarine.rows,
        getCell r "issue" ≠ some "Reference should not produce marine data.")) :=
  ⟨rfl, C6_marine_flag_gate sampleData "false" "survey" "period" sampleFetch
    sampleSpecs "responder_id" sampleEnriched sampleAnomsNoMarine rfl⟩

/-- C9: detection never changes the enriched table: a successful
enrichment returns exactly the fold of the configured joins over the
primary frame, so two runs differing only in the marine flag value that
both succeed return the same enriched table, whatever anomalies were
detected. -/
theorem C9_detection_frame_effect (data_df : DFrame) (c1 c2 s p : String)
    (fetch : String → Except String DFrame) (lks : List LookupSpec) (idc : String)
    (o1 a1 o2 a2 : DFrame)
    (h1 : data_enrichment data_df c1 s p fetch lks idc = .ok (o1, a1))
    (h2 : data_enrichment data_df c2 s p fetch lks idc = .ok (o2, a2)) :
    o1 = o2 ∧ ∃ rc, joinLookups data_df lks fetch = .ok (rc, o1) := by
  obtain ⟨rc1, an1, hj1, _, _⟩ := data_enrichment_ok_inv h1
  obtain ⟨rc2, an2, hj2, _, _⟩ := data_enrichment_ok_inv h2
  have hpair := Except.ok.inj (hj1.symm.trans hj2)
  exact ⟨congrArg Prod.snd hpair, rc1, hj1⟩

/-- C9 witness: the theorem applied to the sample run with the marine
check enabled and disabled; both succeed with the same enriched table. -/
theorem C9_detection_frame_effect_witness :
    data_enrichment sampleData "true" "survey" "period" sampleFetch sampleSpecs
      "responder_id" = .ok (sampleEnriched, sampleAnoms) ∧
    data_enrichment sampleData "false" "survey" "period" sampleFetch sampleSpecs
      "responder_id" = .ok (sampleEnriched, sampleAnomsNoMarine) ∧
    (sampleEnriched = sampleEnriched ∧
     ∃ rc, joinLookups sampleData sampleSpecs sampleFetch = .ok (rc, sampleEnriched)) :=
  ⟨rfl, rfl, C9_detection_frame_effect sampleData "true" "false" "survey" "period"
    sampleFetch sampleSpecs "responder_id" sampleEnriched sampleAnoms
    sampleEnriched sampleAnomsNoMarine rfl rfl⟩

/-- C8 witness: the amended theorem applied to a zero-row table holding a
responder_id and a county column. -/
theorem C8_empty_table_ok_witness :
    ((∀ c ∈ ["county"], c ∈ ["responder_id", "county"]) ∧
     "responder_id" ∈ ["responder_id", "county"] ∧ (["county"] : List String) ≠ []) ∧
    missing_column_detector ⟨["responder_id", "county"], []⟩ ["county"] "responder_id" =
      .ok ⟨["responder_id", "issue"], []⟩ :=
  ⟨⟨by decide, by decide, by decide⟩,
    C8_empty_table_ok ["responder_id", "county"] ["county"] "responder_id"
      (by decide) (by decide) (by decide)⟩

end Enrichment
